import Mathlib

/-
Verification of the rdtech-um driver core (src/src/hardware/rdtech-um/protocol.c
and protocol.h) against its natural-language specification.

The C code is shallowly embedded: byte buffers become `List Nat` (each element a
byte value), the device context's fields become explicit state records, machine
floats used as scale factors become exact rationals, and the transport layer
(serial reads/writes) becomes explicit inputs to the embedded functions.
-/

namespace RdtechUm

/- enum rdtech_um_data_type (protocol.h, lines 27-31). -/

def RDTECH_UM_UINT8 : Nat := 0
def RDTECH_UM_UINT16 : Nat := 1
def RDTECH_UM_UINT32 : Nat := 2

/- Quantity and unit tags come from libsigrok.h, which is outside src/.  Their
numeric values are immaterial to every claim (they are carried as opaque
metadata); distinct small numbers stand in for the C enum values. -/

def SR_MQ_VOLTAGE : Nat := 1
def SR_MQ_CURRENT : Nat := 2
def SR_MQ_TEMPERATURE : Nat := 3
def SR_UNIT_VOLT : Nat := 1
def SR_UNIT_AMPERE : Nat := 2
def SR_UNIT_CELSIUS : Nat := 3
def SR_UNIT_WATT_HOUR : Nat := 4

/-- struct rdtech_um_channel (protocol.h, lines 33-41).  The C `float scale` is
modelled as an exact rational; the decimal literals of the channel table (0.01,
0.001, 1.0) are represented exactly. -/
structure rdtech_um_channel where
  name : String
  offset : Nat
  type : Nat
  scale : ℚ
  digits : Nat
  mq : Nat
  unit : Nat
deriving Repr, DecidableEq

/-- struct rdtech_um_profile (protocol.h, lines 44-59).  `poll_start`/`poll_end`
are `Option` because the C fields are pointers that may be NULL (the code guards
every use with `p->poll_start &&` / `p->poll_end &&`). -/
structure rdtech_um_profile where
  model_name : String
  poll_period : Int
  timeout : Int
  poll_len : Nat
  poll_start : Option (List Nat)
  poll_start_len : Nat
  poll_end : Option (List Nat)
  poll_end_len : Nat
  channels : List rdtech_um_channel
deriving Repr, DecidableEq

/-- rdtech_um24c_channels (protocol.c, lines 32-41), without the NULL sentinel
row (the sentinel only terminates C iteration). -/
def rdtech_um24c_channels : List rdtech_um_channel :=
  [ ⟨"V", 0x02, RDTECH_UM_UINT16, 1/100, 2, SR_MQ_VOLTAGE, SR_UNIT_VOLT⟩,
    ⟨"I", 0x04, RDTECH_UM_UINT16, 1/1000, 3, SR_MQ_CURRENT, SR_UNIT_AMPERE⟩,
    ⟨"D+", 0x60, RDTECH_UM_UINT16, 1/100, 2, SR_MQ_VOLTAGE, SR_UNIT_VOLT⟩,
    ⟨"D-", 0x62, RDTECH_UM_UINT16, 1/100, 2, SR_MQ_VOLTAGE, SR_UNIT_VOLT⟩,
    ⟨"Temp", 0x0A, RDTECH_UM_UINT16, 1, 0, SR_MQ_TEMPERATURE, SR_UNIT_CELSIUS⟩,
    ⟨"Consumption", 0x6a, RDTECH_UM_UINT32, 1/1000, 3, 0, SR_UNIT_WATT_HOUR⟩ ]

/-- rdtech_um24c_profile (protocol.c, lines 43-53); poll_len is
RDTECH_UM24C_POLL_LEN = 0x82 = 130. -/
def rdtech_um24c_profile : rdtech_um_profile :=
  ⟨"UM24C", 100, 1000, 0x82, some [0x09, 0x63], 2, some [0xff, 0xf1], 2,
    rdtech_um24c_channels⟩

/-- Modelled from the spec: RB16 is a macro of libsigrok-internal.h, which is
not under src/.  Per spec §4.4 the integer is "interpreted as big-endian
unsigned": the first byte is most significant.  Reads past the end of the list
yield 0 (every use in the claims stays in range). -/
def RB16 (data : List Nat) : Nat :=
  256 * data.getD 0 0 + data.getD 1 0

/-- Modelled from the spec: RB32 is a macro of libsigrok-internal.h, which is
not under src/.  Big-endian unsigned 32-bit read, as in spec §4.4. -/
def RB32 (data : List Nat) : Nat :=
  16777216 * data.getD 0 0 + 65536 * data.getD 1 0 + 256 * data.getD 2 0 +
    data.getD 3 0

/-- get_sample (protocol.c, lines 113-127): switch on the channel's data type;
read the unsigned big-endian integer at the channel's offset and multiply by the
scale factor; an unrecognized type logs an error and yields 0.0. -/
def get_sample (buf : List Nat) (ch : rdtech_um_channel) : ℚ :=
  if ch.type = RDTECH_UM_UINT8 then (buf.getD ch.offset 0 : ℚ) * ch.scale
  else if ch.type = RDTECH_UM_UINT16 then (RB16 (buf.drop ch.offset) : ℚ) * ch.scale
  else if ch.type = RDTECH_UM_UINT32 then (RB32 (buf.drop ch.offset) : ℚ) * ch.scale
  else 0

/-- The per-channel loop of handle_poll_data (protocol.c, lines 171-173): one
value per channel of the table, in table order (send_channel publishes
get_sample's value for each channel). -/
def decode_channels (buf : List Nat) (chs : List rdtech_um_channel) : List ℚ :=
  chs.map (get_sample buf)

/-- A concrete 130-byte UM24C frame carrying the sample values of spec §8
property 3: 0x0096 at offset 2 (V), 0x0064 at offset 4 (I), 0x0019 at offset 10
(Temp), 0x000003E8 at offset 0x6a (Consumption); start marker 09 63, end marker
ff f1. -/
def sample_frame : List Nat :=
  [0x09, 0x63, 0x00, 0x96, 0x00, 0x64] ++ List.replicate 4 0 ++ [0x00, 0x19]
    ++ List.replicate 94 0 ++ [0x00, 0x00, 0x03, 0xE8] ++ List.replicate 18 0
    ++ [0xff, 0xf1]

theorem sample_frame_v : RB16 (List.drop 2 sample_frame) = 150 := by decide

theorem sample_frame_i : RB16 (List.drop 4 sample_frame) = 100 := by decide

theorem sample_frame_dplus : RB16 (List.drop 96 sample_frame) = 0 := by decide

theorem sample_frame_dminus : RB16 (List.drop 98 sample_frame) = 0 := by decide

theorem sample_frame_temp : RB16 (List.drop 10 sample_frame) = 25 := by decide

theorem sample_frame_energy : RB32 (List.drop 106 sample_frame) = 1000 := by decide

/-- Claim C4: on a complete valid frame the decoder reads each channel's integer
at its declared offset as big-endian unsigned of the declared width and
multiplies by the channel's scale: bytes 00 96 at the voltage offset give 1.50,
00 64 at the current offset give 0.100, 00 19 at the temperature offset give 25,
and 00 00 03 E8 at the energy offset give 1.000 (channel order V, I, D+, D-,
Temp, Consumption; D+/D- read zero bytes here). -/
theorem get_sample_decodes_table :
    decode_channels sample_frame rdtech_um24c_channels
      = [3/2, 1/10, 0, 0, 25, 1] := by
  simp only [decode_channels, rdtech_um24c_channels, List.map_cons, List.map_nil,
    get_sample, RDTECH_UM_UINT8, RDTECH_UM_UINT16, RDTECH_UM_UINT32]
  norm_num [sample_frame_v, sample_frame_i, sample_frame_dplus,
    sample_frame_dminus, sample_frame_temp, sample_frame_energy]

/-- The observable state of the frame assembler: `buf` is the first `buflen`
bytes of dev_context.buf (protocol.h, lines 65-66), `dispatched` records each
buffer handed to handle_poll_data, and `dropped` counts resync drops (the
`devc->buflen--; memmove(...)` events at protocol.c, lines 199-200). -/
structure RecvState where
  buf : List Nat
  dispatched : List (List Nat)
  dropped : Nat
deriving Repr, DecidableEq

/-- The header check of one iteration of recv_poll_data's while loop (protocol.c,
lines 185-201): append the received byte; when the fill length reaches
poll_start_len and a start marker is defined, a mismatching header drops the
oldest byte (shift left by one, decrement the fill length, count one resync
drop). -/
def recv_header (p : rdtech_um_profile) (s : RecvState) (b : Nat) : RecvState :=
  match p.poll_start with
  | some m =>
    if (s.buf ++ [b]).length = p.poll_start_len ∧
        (s.buf ++ [b]).take p.poll_start_len ≠ m.take p.poll_start_len then
      ⟨(s.buf ++ [b]).drop 1, s.dispatched, s.dropped + 1⟩
    else ⟨s.buf ++ [b], s.dispatched, s.dropped⟩
  | none => ⟨s.buf ++ [b], s.dispatched, s.dropped⟩

/-- The completion check (protocol.c, lines 204-214): when the fill length
equals poll_len, dispatch the buffer when a defined end marker matches its tail,
and reset the fill length to zero either way. -/
def recv_complete (p : rdtech_um_profile) (s1 : RecvState) : RecvState :=
  if s1.buf.length = p.poll_len then
    match p.poll_end with
    | some m =>
      if (s1.buf.drop (s1.buf.length - p.poll_end_len)).take p.poll_end_len
          = m.take p.poll_end_len then
        ⟨[], s1.dispatched ++ [s1.buf], s1.dropped⟩
      else ⟨[], s1.dispatched, s1.dropped⟩
    | none => ⟨[], s1.dispatched, s1.dropped⟩
  else s1

/-- One received byte of recv_poll_data (protocol.c, lines 185-214): the header
check followed by the completion check.  Folding this step over the stream is
exactly the C call structure: the C loop exits when the buffer fills,
dispatches/discards, and the remaining serial bytes are consumed by the next
invocation starting from the reset buffer. -/
def recv_poll_step (p : rdtech_um_profile) (s : RecvState) (b : Nat) : RecvState :=
  recv_complete p (recv_header p s b)

/-- recv_poll_data (protocol.c, lines 178-215) over a stream of available bytes
delivered one at a time. -/
def recv_poll_data (p : rdtech_um_profile) (s : RecvState) (input : List Nat) :
    RecvState :=
  input.foldl (recv_poll_step p) s

theorem recv_poll_data_nil (p : rdtech_um_profile) (s : RecvState) :
    recv_poll_data p s [] = s := rfl

theorem recv_poll_data_cons (p : rdtech_um_profile) (s : RecvState) (b : Nat)
    (input : List Nat) :
    recv_poll_data p s (b :: input)
      = recv_poll_data p (recv_poll_step p s b) input := rfl

theorem recv_poll_data_append (p : rdtech_um_profile) (s : RecvState)
    (xs ys : List Nat) :
    recv_poll_data p s (xs ++ ys) = recv_poll_data p (recv_poll_data p s xs) ys :=
  List.foldl_append _ _ _ _

/-- A filling step of the UM24C assembler: while the buffer already holds the
two marker bytes and stays short of the 130-byte frame length, a received byte
is only appended. -/
theorem recv_step_fill (s : RecvState) (b : Nat) (h1 : s.buf.length ≠ 1)
    (h2 : s.buf.length + 1 ≠ 130) :
    recv_poll_step rdtech_um24c_profile s b = ⟨s.buf ++ [b], s.dispatched, s.dropped⟩ := by
  have h1' : ¬(s.buf.length = 1) := h1
  have h2' : ¬(s.buf.length + 1 = 130) := h2
  have h2'' : ¬(s.buf.length = 129) := by omega
  simp [recv_poll_step, recv_header, recv_complete, rdtech_um24c_profile, h1', h2', h2'']

/-- The first byte after a reset is always kept (no check fires at length 1). -/
theorem recv_step_first (b : Nat) (d : List (List Nat)) (k : Nat) :
    recv_poll_step rdtech_um24c_profile ⟨[], d, k⟩ b = ⟨[b], d, k⟩ := by
  simp [recv_poll_step, recv_header, recv_complete, rdtech_um24c_profile]

/-- Header check success: with 0x09 buffered, receiving 0x63 completes the start
marker and nothing is dropped. -/
theorem recv_step_header_match (d : List (List Nat)) (k : Nat) :
    recv_poll_step rdtech_um24c_profile ⟨[0x09], d, k⟩ 0x63 = ⟨[0x09, 0x63], d, k⟩ := by
  simp [recv_poll_step, recv_header, recv_complete, rdtech_um24c_profile]

/-- Header check failure: when the two buffered bytes are not 0x09 0x63, exactly
the oldest byte is dropped. -/
theorem recv_step_header_mismatch (x y : Nat) (hxy : ¬(x = 0x09 ∧ y = 0x63))
    (d : List (List Nat)) (k : Nat) :
    recv_poll_step rdtech_um24c_profile ⟨[x], d, k⟩ y = ⟨[y], d, k + 1⟩ := by
  have hne : ¬([x, y] = [0x09, 0x63]) := by
    intro h
    exact hxy ⟨by injection h, by injection h with _ h2; injection h2⟩
  simp [recv_poll_step, recv_header, recv_complete, rdtech_um24c_profile, hne]

/-- Completion step: the 130th byte triggers the end-marker check; on match the
full buffer is dispatched, on mismatch it is discarded; the fill length is reset
to zero either way and no resync drop happens. -/
theorem recv_step_complete (buf : List Nat) (b : Nat) (d : List (List Nat))
    (k : Nat) (h : buf.length = 129) :
    recv_poll_step rdtech_um24c_profile ⟨buf, d, k⟩ b
      = ⟨[], d ++ (if (buf ++ [b]).drop 128 = [0xff, 0xf1] then [buf ++ [b]] else []), k⟩ := by
  have hA : ¬(buf.length = 1) := by omega
  have htake : List.take 2 (List.drop 128 (buf ++ [b])) = List.drop 128 (buf ++ [b]) := by
    apply List.take_of_length_le
    simp [h]
  by_cases hend : List.drop 128 (buf ++ [b]) = [0xff, 0xf1]
  · simp [recv_poll_step, recv_header, recv_complete, rdtech_um24c_profile, hA, h,
      htake, hend]
  · simp [recv_poll_step, recv_header, recv_complete, rdtech_um24c_profile, hA, h,
      htake, hend]

/-- Filling run: from a buffer already holding the matched marker (length ≥ 2),
bytes that keep the fill length short of 130 are only appended: no drop, no
dispatch. -/
theorem recv_fill (xs : List Nat) : ∀ s : RecvState, 2 ≤ s.buf.length →
    s.buf.length + xs.length < 130 →
    recv_poll_data rdtech_um24c_profile s xs = ⟨s.buf ++ xs, s.dispatched, s.dropped⟩ := by
  induction xs with
  | nil =>
    intro s _ _
    simp [recv_poll_data]
  | cons b bs ih =>
    intro s h1 h2
    simp only [List.length_cons] at h2
    rw [recv_poll_data_cons, recv_step_fill s b (by omega) (by omega)]
    rw [ih ⟨s.buf ++ [b], s.dispatched, s.dropped⟩ (by simp; omega) (by simp; omega)]
    simp

/-- No two consecutive stream bytes form the UM24C start marker 09 63; garbage
satisfying this resynchronizes one byte at a time. -/
def not_start_pair (x y : Nat) : Prop := ¬(x = 0x09 ∧ y = 0x63)

instance : DecidableRel not_start_pair := fun x y =>
  inferInstanceAs (Decidable ¬(x = 0x09 ∧ y = 0x63))

/-- Resync run, one stale byte buffered: garbage bytes free of the marker pair
each cost exactly one drop, and the trailing 09 63 is then matched. -/
theorem recv_resync_chain (g : List Nat) : ∀ (x : Nat) (d : List (List Nat))
    (k : Nat) (rest : List Nat), List.Chain' not_start_pair (x :: g) →
    recv_poll_data rdtech_um24c_profile ⟨[x], d, k⟩ (g ++ 0x09 :: 0x63 :: rest)
      = recv_poll_data rdtech_um24c_profile ⟨[0x09, 0x63], d, k + g.length + 1⟩ rest := by
  induction g with
  | nil =>
    intro x d k rest _
    simp only [List.nil_append, List.length_nil, Nat.add_zero]
    rw [recv_poll_data_cons, recv_step_header_mismatch x 0x09 (by simp) d k]
    rw [recv_poll_data_cons, recv_step_header_match]
  | cons y g' ih =>
    intro x d k rest hch
    rw [List.chain'_cons] at hch
    simp only [List.cons_append]
    rw [recv_poll_data_cons, recv_step_header_mismatch x y hch.1 d k]
    rw [ih y d (k + 1) rest hch.2]
    have harith : k + 1 + g'.length + 1 = k + (y :: g').length + 1 := by
      simp only [List.length_cons]
      omega
    rw [harith]

/-- Resync run from an empty buffer: N garbage bytes free of the marker pair are
discarded one at a time (N drops exactly), after which the marker 09 63 sits
matched in the buffer. -/
theorem recv_resync (g : List Nat) (d : List (List Nat)) (k : Nat)
    (rest : List Nat) (hch : List.Chain' not_start_pair g) :
    recv_poll_data rdtech_um24c_profile ⟨[], d, k⟩ (g ++ 0x09 :: 0x63 :: rest)
      = recv_poll_data rdtech_um24c_profile ⟨[0x09, 0x63], d, k + g.length⟩ rest := by
  cases g with
  | nil =>
    simp only [List.nil_append, List.length_nil, Nat.add_zero]
    rw [recv_poll_data_cons, recv_step_first, recv_poll_data_cons, recv_step_header_match]
  | cons x g' =>
    simp only [List.cons_append]
    rw [recv_poll_data_cons, recv_step_first]
    rw [recv_resync_chain g' x d k rest hch]
    have harith : k + g'.length + 1 = k + (x :: g').length := by
      simp only [List.length_cons]
      omega
    rw [harith]

/-- A matched marker followed by 128 bytes completes a frame: on a matching end
marker the whole 130-byte buffer is dispatched, otherwise it is discarded; the
buffer is empty afterwards and no resync drop occurs in between. -/
theorem recv_frame_body (mid : List Nat) (e1 e2 : Nat) (rest : List Nat)
    (d : List (List Nat)) (k : Nat) (hmid : mid.length = 126) :
    recv_poll_data rdtech_um24c_profile ⟨[0x09, 0x63], d, k⟩ ((mid ++ [e1, e2]) ++ rest)
      = recv_poll_data rdtech_um24c_profile
          ⟨[], d ++ (if ([e1, e2] : List Nat) = [0xff, 0xf1]
                     then [0x09 :: 0x63 :: (mid ++ [e1, e2])] else []), k⟩
          rest := by
  have hsplit : (mid ++ [e1, e2]) ++ rest = mid ++ (e1 :: e2 :: rest) := by
    simp
  rw [hsplit, recv_poll_data_append _ _ mid (e1 :: e2 :: rest)]
  rw [recv_fill mid ⟨[0x09, 0x63], d, k⟩ (by simp) (by simp [hmid])]
  rw [recv_poll_data_cons]
  rw [recv_step_fill ⟨[0x09, 0x63] ++ mid, d, k⟩ e1 (by simp [hmid]) (by simp [hmid])]
  rw [recv_poll_data_cons]
  rw [recv_step_complete (([0x09, 0x63] ++ mid) ++ [e1]) e2 d k (by simp [hmid])]
  have hassoc : (([0x09, 0x63] ++ mid) ++ [e1]) ++ [e2]
      = ([0x09, 0x63] ++ mid) ++ [e1, e2] := by simp
  rw [hassoc]
  have hlen128 : ([0x09, 0x63] ++ mid : List Nat).length = 128 := by simp [hmid]
  have hdrop : (([0x09, 0x63] ++ mid) ++ [e1, e2] : List Nat).drop 128 = [e1, e2] := by
    rw [← hlen128, List.drop_left]
  rw [hdrop]
  simp

/-- A full well-formed-start frame fed from an empty buffer: dispatched when its
end marker is right, discarded whole when it is wrong; later bytes start from
the empty buffer. -/
theorem recv_frame (mid : List Nat) (e1 e2 : Nat) (rest : List Nat)
    (d : List (List Nat)) (k : Nat) (hmid : mid.length = 126) :
    recv_poll_data rdtech_um24c_profile ⟨[], d, k⟩
        ((0x09 :: 0x63 :: (mid ++ [e1, e2])) ++ rest)
      = recv_poll_data rdtech_um24c_profile
          ⟨[], d ++ (if ([e1, e2] : List Nat) = [0xff, 0xf1]
                     then [0x09 :: 0x63 :: (mid ++ [e1, e2])] else []), k⟩
          rest := by
  simp only [List.cons_append]
  rw [recv_poll_data_cons, recv_step_first, recv_poll_data_cons, recv_step_header_match]
  exact recv_frame_body mid e1 e2 rest d k hmid

/-- Garbage free of the marker pair, then a fully well-formed frame: the run
drops exactly one byte per garbage byte, dispatches exactly the frame, and ends
with an empty buffer. -/
theorem recv_garbage_frame (g mid : List Nat) (hg : List.Chain' not_start_pair g)
    (hmid : mid.length = 126) :
    recv_poll_data rdtech_um24c_profile ⟨[], [], 0⟩
        (g ++ (0x09 :: 0x63 :: (mid ++ [0xff, 0xf1])))
      = ⟨[], [0x09 :: 0x63 :: (mid ++ [0xff, 0xf1])], g.length⟩ := by
  have hshape : g ++ (0x09 :: 0x63 :: (mid ++ [0xff, 0xf1]))
      = g ++ 0x09 :: 0x63 :: (mid ++ [0xff, 0xf1]) := rfl
  rw [hshape, recv_resync g [] 0 (mid ++ [0xff, 0xf1]) hg]
  have hbody := recv_frame_body mid 0xff 0xf1 [] [] (0 + g.length) hmid
  simp only [List.append_nil] at hbody
  rw [hbody]
  simp [recv_poll_data]

/-- The header phase grows the fill length by at most one byte. -/
theorem recv_header_buflen (p : rdtech_um_profile) (s : RecvState) (b : Nat) :
    (recv_header p s b).buf.length ≤ s.buf.length + 1 := by
  unfold recv_header
  split
  · split <;> simp
  · simp

/-- The completion phase leaves the fill length strictly below poll_len whenever
it was at most poll_len before (a full buffer is always reset to zero). -/
theorem recv_complete_buflen (p : rdtech_um_profile) (s1 : RecvState)
    (hle : s1.buf.length ≤ p.poll_len) (hpos : 0 < p.poll_len) :
    (recv_complete p s1).buf.length < p.poll_len := by
  unfold recv_complete
  split
  · split <;> (try split) <;> simp <;> omega
  · omega

theorem recv_step_buflen (p : rdtech_um_profile) (s : RecvState) (b : Nat)
    (h : s.buf.length < p.poll_len) :
    (recv_poll_step p s b).buf.length < p.poll_len := by
  have h1 := recv_header_buflen p s b
  exact recv_complete_buflen p _ (by omega) (by omega)

/-- Claim C9: if the fill length is below the frame length before a call to the
byte-receiving operation, the same bound holds after it returns, for any byte
stream the call consumes: the buffer is never left complete (a full buffer is
dispatched or discarded and reset within the call) and the fill length never
exceeds the frame length. -/
theorem recv_poll_data_buflen_invariant (p : rdtech_um_profile)
    (input : List Nat) : ∀ s : RecvState, s.buf.length < p.poll_len →
    (recv_poll_data p s input).buf.length < p.poll_len := by
  induction input with
  | nil =>
    intro s h
    exact h
  | cons b bs ih =>
    intro s h
    rw [recv_poll_data_cons]
    exact ih _ (recv_step_buflen p s b h)

/-- Witness for C9 at concrete inputs. -/
theorem recv_poll_data_buflen_invariant_witness :
    (recv_poll_data rdtech_um24c_profile ⟨[1, 2], [], 0⟩ [3, 4, 5]).buf.length
      < rdtech_um24c_profile.poll_len :=
  recv_poll_data_buflen_invariant rdtech_um24c_profile [3, 4, 5] ⟨[1, 2], [], 0⟩
    (by decide)

/-- A concrete well-formed UM24C frame: start marker, 126 zero payload bytes,
end marker. -/
def frame0 : List Nat := 0x09 :: 0x63 :: (List.replicate 126 0 ++ [0xff, 0xf1])

/-- Counterexample to claim C1 as stated: the byte stream 09 63 ++ frame0
contains the well-formed frame frame0 (length 130, start marker 09 63, end
marker ff f1), yet feeding it byte by byte from an empty buffer dispatches no
frame at all: the two leading bytes are themselves taken as a start marker, the
assembler locks onto them, the completion check fails, and the whole buffer —
including 128 bytes of the real frame — is discarded. -/
theorem recv_containing_stream_cex :
    frame0.length = 130 ∧ frame0.take 2 = [0x09, 0x63] ∧ frame0.drop 128 = [0xff, 0xf1]
    ∧ (recv_poll_data rdtech_um24c_profile ⟨[], [], 0⟩
        ([0x09, 0x63] ++ frame0)).dispatched = [] := by
  set_option maxRecDepth 100000 in decide

/-- Claim C1 (amended): for every well-formed frame (start marker 09 63, 130
bytes, end marker ff f1) preceded by garbage in which the start-marker byte pair
never occurs at consecutive positions, feeding the bytes to the frame assembler
one byte at a time results in exactly one dispatch whose buffer contents are
exactly the frame's bytes, after which the buffer fill length is reset to
zero. -/
theorem recv_dispatches_wellformed_frame (g mid : List Nat)
    (hg : List.Chain' not_start_pair g) (hmid : mid.length = 126) :
    (recv_poll_data rdtech_um24c_profile ⟨[], [], 0⟩
        (g ++ (0x09 :: 0x63 :: (mid ++ [0xff, 0xf1])))).dispatched
      = [0x09 :: 0x63 :: (mid ++ [0xff, 0xf1])]
    ∧ (recv_poll_data rdtech_um24c_profile ⟨[], [], 0⟩
        (g ++ (0x09 :: 0x63 :: (mid ++ [0xff, 0xf1])))).buf = [] := by
  rw [recv_garbage_frame g mid hg hmid]
  exact ⟨rfl, rfl⟩

/-- Witness for the amended C1 at concrete inputs. -/
theorem recv_dispatches_wellformed_frame_witness :
    (recv_poll_data rdtech_um24c_profile ⟨[], [], 0⟩
        ([1, 2, 3] ++ (0x09 :: 0x63 :: (List.replicate 126 0 ++ [0xff, 0xf1])))).dispatched
      = [0x09 :: 0x63 :: (List.replicate 126 0 ++ [0xff, 0xf1])] :=
  (recv_dispatches_wellformed_frame [1, 2, 3] (List.replicate 126 0)
    (by simp [List.chain'_cons, List.chain'_singleton, not_start_pair])
    (by simp)).1

/-- Counterexample to claim C2 as stated: N = 2 garbage bytes 09 63 precede the
valid start marker of frame0, but the assembler does not discard exactly N = 2
bytes one at a time: it locks onto the garbage as a start marker and performs
exactly one single-byte resync drop over the whole run. -/
theorem recv_resync_garbage_cex :
    ([0x09, 0x63] : List Nat).length = 2
    ∧ (recv_poll_data rdtech_um24c_profile ⟨[], [], 0⟩
        ([0x09, 0x63] ++ frame0)).dropped = 1 := by
  set_option maxRecDepth 100000 in decide

/-- Claim C2 (amended): for every N and every sequence of N garbage bytes in
which the start-marker byte pair 09 63 never occurs at consecutive positions,
preceding a valid start marker (here followed by the rest of a well-formed
frame), the assembler discards exactly N bytes — one per mismatch event — and
discards no bytes once the start marker has been matched (the frame completes
and is dispatched intact). -/
theorem recv_resync_drops_garbage (g mid : List Nat)
    (hg : List.Chain' not_start_pair g) (hmid : mid.length = 126) :
    (recv_poll_data rdtech_um24c_profile ⟨[], [], 0⟩
        (g ++ (0x09 :: 0x63 :: (mid ++ [0xff, 0xf1])))).dropped = g.length
    ∧ (recv_poll_data rdtech_um24c_profile ⟨[], [], 0⟩
        (g ++ (0x09 :: 0x63 :: (mid ++ [0xff, 0xf1])))).dispatched
      = [0x09 :: 0x63 :: (mid ++ [0xff, 0xf1])] := by
  rw [recv_garbage_frame g mid hg hmid]
  exact ⟨rfl, rfl⟩

/-- Witness for the amended C2 at concrete inputs (N = 4). -/
theorem recv_resync_drops_garbage_witness :
    (recv_poll_data rdtech_um24c_profile ⟨[], [], 0⟩
        ([0x63, 0x09, 0x10, 0x20] ++ (0x09 :: 0x63 :: (List.replicate 126 5 ++ [0xff, 0xf1])))).dropped
      = ([0x63, 0x09, 0x10, 0x20] : List Nat).length :=
  (recv_resync_drops_garbage [0x63, 0x09, 0x10, 0x20] (List.replicate 126 5)
    (by simp [List.chain'_cons, List.chain'_singleton, not_start_pair])
    (by simp)).1

/-- Claim C5: when the buffer reaches the full frame length with a wrong end
marker, the assembler discards the entire buffer with no byte-shifting resync
(zero resync drops), and the very next byte begins assembly from the empty
state: a corrupted frame followed immediately by a valid frame dispatches
exactly the valid frame. -/
theorem recv_end_marker_mismatch_discards (cmid fmid : List Nat) (e1 e2 : Nat)
    (hc : cmid.length = 126) (hbad : ¬(([e1, e2] : List Nat) = [0xff, 0xf1]))
    (hf : fmid.length = 126) :
    recv_poll_data rdtech_um24c_profile ⟨[], [], 0⟩
        ((0x09 :: 0x63 :: (cmid ++ [e1, e2]))
          ++ (0x09 :: 0x63 :: (fmid ++ [0xff, 0xf1])))
      = ⟨[], [0x09 :: 0x63 :: (fmid ++ [0xff, 0xf1])], 0⟩ := by
  rw [recv_frame cmid e1 e2 _ [] 0 hc, if_neg hbad]
  have h2 := recv_garbage_frame [] fmid (by simp) hf
  simpa using h2

/-- Witness for C5 at concrete inputs. -/
theorem recv_end_marker_mismatch_discards_witness :
    recv_poll_data rdtech_um24c_profile ⟨[], [], 0⟩
        ((0x09 :: 0x63 :: (List.replicate 126 0 ++ [0, 0]))
          ++ (0x09 :: 0x63 :: (List.replicate 126 7 ++ [0xff, 0xf1])))
      = ⟨[], [0x09 :: 0x63 :: (List.replicate 126 7 ++ [0xff, 0xf1])], 0⟩ :=
  recv_end_marker_mismatch_discards (List.replicate 126 0) (List.replicate 126 7)
    0 0 (by simp) (by decide) (by simp)

/-- Claim C8: a channel whose declared encoding width is none of the supported
8/16/32-bit unsigned types does not fail the frame decode: that channel yields
zero (the C code logs an error) while every other channel of the frame is
decoded normally. -/
theorem get_sample_unknown_type (buf : List Nat)
    (pre post : List rdtech_um_channel) (ch : rdtech_um_channel)
    (h0 : ch.type ≠ RDTECH_UM_UINT8) (h1 : ch.type ≠ RDTECH_UM_UINT16)
    (h2 : ch.type ≠ RDTECH_UM_UINT32) :
    get_sample buf ch = 0
    ∧ decode_channels buf (pre ++ ch :: post)
      = decode_channels buf pre ++ 0 :: decode_channels buf post := by
  have hz : get_sample buf ch = 0 := by
    simp [get_sample, h0, h1, h2]
  refine ⟨hz, ?_⟩
  simp [decode_channels, hz]

/-- Witness for C8: a channel with type tag 7 decodes to zero next to a normal
channel. -/
theorem get_sample_unknown_type_witness :
    get_sample sample_frame ⟨"X", 0, 7, 1, 0, 0, 0⟩ = 0 :=
  (get_sample_unknown_type sample_frame [] [] ⟨"X", 0, 7, 1, 0, 0, 0⟩
    (by decide) (by decide) (by decide)).1

/- Return codes from libsigrok.h (outside src/), used only as distinct outcome
tags: SR_OK for success, SR_ERR for a generic error. -/

def SR_OK : Int := 0
def SR_ERR : Int := -1

/-- ScheduleState: the cmd_sent_at field of dev_context (protocol.h, line 67),
the monotonic-ms timestamp of the last issued poll command. -/
structure sched_state where
  cmd_sent_at : Int
deriving Repr, DecidableEq

/-- rdtech_um_poll (protocol.c, lines 96-111): attempt the single fixed-byte
poll write; on failure return SR_ERR with the state untouched; on success
record the current monotonic time and return SR_OK.  The transport outcome
(write_ok) and the clock reading (now) are explicit inputs. -/
def rdtech_um_poll (write_ok : Bool) (now : Int) (st : sched_state) :
    Int × sched_state :=
  if write_ok = false then (SR_ERR, st)
  else (SR_OK, ⟨now⟩)

/-- The cadence tail of rdtech_um_receive_data (protocol.c, lines 242-246):
compute elapsed = now - cmd_sent_at and invoke rdtech_um_poll exactly when
elapsed is strictly greater than the profile's poll period.  Returns the new
schedule state and the number of poll attempts made (0 or 1). -/
def receive_data_cadence (p : rdtech_um_profile) (now : Int) (write_ok : Bool)
    (st : sched_state) : sched_state × Nat :=
  if now - st.cmd_sent_at > p.poll_period then
    ((rdtech_um_poll write_ok now st).2, 1)
  else (st, 0)

/-- Counterexample to claim C3 as stated: at the boundary now - lastPoll =
pollPeriod (now = 100, cmd_sent_at = 0, period = 100) the claim requires a poll
to be issued, but the code compares with strict greater-than and does
nothing. -/
theorem receive_data_cadence_boundary_cex :
    (100 : Int) - 0 ≥ rdtech_um24c_profile.poll_period
    ∧ receive_data_cadence rdtech_um24c_profile 100 true ⟨0⟩ = (⟨0⟩, 0) := by
  constructor
  · decide
  · simp [receive_data_cadence, rdtech_um24c_profile]

/-- Claim C3 (amended): with a successful write, the scheduler emits the poll
byte and sets the last-poll timestamp to now exactly when now - cmd_sent_at is
strictly greater than the poll period; when now - cmd_sent_at ≤ period — in
particular at the boundary of equality — it is a no-op. -/
theorem receive_data_cadence_spec (p : rdtech_um_profile) (now : Int)
    (st : sched_state) :
    (now - st.cmd_sent_at > p.poll_period →
      receive_data_cadence p now true st = (⟨now⟩, 1))
    ∧ (now - st.cmd_sent_at ≤ p.poll_period →
      receive_data_cadence p now true st = (st, 0)) := by
  constructor
  · intro h
    unfold receive_data_cadence
    rw [if_pos h]
    simp [rdtech_um_poll]
  · intro h
    unfold receive_data_cadence
    rw [if_neg (by omega)]

/-- Witness for the amended C3 at concrete inputs. -/
theorem receive_data_cadence_spec_witness :
    receive_data_cadence rdtech_um24c_profile 101 true ⟨0⟩ = (⟨101⟩, 1) :=
  (receive_data_cadence_spec rdtech_um24c_profile 101 ⟨0⟩).1 (by decide)

/-- Claim C10: a failed poll write returns an error and leaves the recorded
last-poll timestamp unchanged; the timestamp is updated to the current time
only on a successful write, so the next cadence check sees the old timestamp
(a failed attempt does not consume the period). -/
theorem rdtech_um_poll_write_failure (t : Int) (st : sched_state) :
    rdtech_um_poll false t st = (SR_ERR, st)
    ∧ rdtech_um_poll true t st = (SR_OK, ⟨t⟩)
    ∧ ∀ (p : rdtech_um_profile) (now : Int) (w : Bool),
        receive_data_cadence p now w (rdtech_um_poll false t st).2
          = receive_data_cadence p now w st := by
  exact ⟨rfl, rfl, fun p now w => rfl⟩

/-- The marker comparison of rdtech_um_probe: memcmp of the first mlen bytes
against the marker, skipped (no failure) when the marker pointer is NULL. -/
def marker_mismatch (marker : Option (List Nat)) (mlen : Nat)
    (bytes : List Nat) : Prop :=
  match marker with
  | some m => bytes.take mlen ≠ m.take mlen
  | none => False

instance (marker : Option (List Nat)) (mlen : Nat) (bytes : List Nat) :
    Decidable (marker_mismatch marker mlen bytes) := by
  unfold marker_mismatch
  cases marker <;> infer_instance

/-- rdtech_um_probe (protocol.c, lines 55-94): one blocking write of the probe
request byte and one blocking read of poll_len bytes (a single exchange, no
retry; the transport outcome is the input pair write_ok/resp).  It fails when
the write does not complete, when the read does not return exactly poll_len
bytes, or when a defined start/end marker does not match the head/tail of the
response; otherwise it returns the (single supported) profile. -/
def rdtech_um_probe (write_ok : Bool) (resp : List Nat) :
    Option rdtech_um_profile :=
  if write_ok = false then none
  else if resp.length ≠ rdtech_um24c_profile.poll_len then none
  else if marker_mismatch rdtech_um24c_profile.poll_start
      rdtech_um24c_profile.poll_start_len resp then none
  else if marker_mismatch rdtech_um24c_profile.poll_end
      rdtech_um24c_profile.poll_end_len
      (resp.drop (rdtech_um24c_profile.poll_len - rdtech_um24c_profile.poll_end_len))
    then none
  else some rdtech_um24c_profile

/-- Claim C6: the probe's single exchange succeeds (returns the matched
profile) exactly when the write completed, no fewer than the frame-length bytes
were read (reads never exceed the requested length, hence the bound), and the
defined start and end markers match exactly at the head and tail of the
response; under any failed check it returns no profile. -/
theorem rdtech_um_probe_spec (write_ok : Bool) (resp : List Nat)
    (hlen : resp.length ≤ 130) :
    rdtech_um_probe write_ok resp = some rdtech_um24c_profile
      ↔ write_ok = true ∧ ¬(resp.length < 130)
        ∧ resp.take 2 = [0x09, 0x63] ∧ (resp.drop 128).take 2 = [0xff, 0xf1] := by
  unfold rdtech_um_probe
  cases write_ok with
  | false => simp
  | true =>
    simp only [marker_mismatch, rdtech_um24c_profile]
    split_ifs <;> simp_all
    omega

set_option maxRecDepth 100000 in
/-- Witness for C6: a well-formed response is accepted. -/
theorem rdtech_um_probe_spec_witness :
    rdtech_um_probe true sample_frame = some rdtech_um24c_profile :=
  (rdtech_um_probe_spec true sample_frame (by decide)).mpr
    ⟨rfl, by decide, by decide, by decide⟩

/-- Modelled from the spec: struct sr_sw_limits and its helpers live in
libsigrok outside src/.  Per spec §3/§4.5, LimitsState is a count of completed
decodes with an optional maximum sample count (the optional elapsed-time cap is
not involved in any claim and is omitted). -/
structure sr_sw_limits where
  limit_samples : Option Nat
  samples_read : Nat
deriving Repr, DecidableEq

/-- Modelled from the spec: sr_sw_limits_update_samples_read (outside src/)
increments the decode counter, per spec §4.5 ("increments the decode counter by
one per completed frame"). -/
def sr_sw_limits_update_samples_read (l : sr_sw_limits) (n : Nat) : sr_sw_limits :=
  ⟨l.limit_samples, l.samples_read + n⟩

/-- Modelled from the spec: sr_sw_limits_check (outside src/) reports whether a
configured cap has been reached, per spec §4.5 ("after incrementing, checks
configured caps; if exceeded, signals stop"). -/
def sr_sw_limits_check (l : sr_sw_limits) : Bool :=
  match l.limit_samples with
  | some cap => decide (cap ≤ l.samples_read)
  | none => false

/-- handle_poll_data (protocol.c, lines 159-176): a buffer of unexpected length
is ignored; a full-length buffer is decoded into one measurement per channel and
counted as exactly one sample (one full multi-channel reading). -/
def handle_poll_data (buf : List Nat) (l : sr_sw_limits) :
    List ℚ × sr_sw_limits :=
  if buf.length ≠ rdtech_um24c_profile.poll_len then ([], l)
  else (decode_channels buf rdtech_um24c_profile.channels,
        sr_sw_limits_update_samples_read l 1)

/-- The per-session state touched by the receive path of
rdtech_um_receive_data: the assembly buffer, the limits state, and whether
acquisition is still running (sr_dev_acquisition_stop ends the session, after
which the callback no longer fires). -/
structure um_session where
  buf : List Nat
  limits : sr_sw_limits
  running : Bool
deriving Repr, DecidableEq

/-- The receive path of one rdtech_um_receive_data invocation (protocol.c,
lines 217-240) on the bytes readable in this event: assemble them, run
handle_poll_data on each completed frame, then check the limits and stop
acquisition (modelled from the spec: sr_dev_acquisition_stop is outside src/)
when the cap is reached.  Returns the new session state and the number of stop
signals raised (0 or 1).  The cadence tail (lines 242-246) is modelled
separately by receive_data_cadence, as it only touches the schedule state. -/
def rdtech_um_receive_data (bytes : List Nat) (s : um_session) :
    um_session × Nat :=
  if s.running = false then (s, 0)
  else
    let r := recv_poll_data rdtech_um24c_profile ⟨s.buf, [], 0⟩ bytes
    let limits1 := r.dispatched.foldl
      (fun l f => (handle_poll_data f l).2) s.limits
    if sr_sw_limits_check limits1 = true then (⟨r.buf, limits1, false⟩, 1)
    else (⟨r.buf, limits1, s.running⟩, 0)

/-- A run of the event loop: fold rdtech_um_receive_data over a list of
byte-availability events, accumulating the total number of stop signals. -/
def run_events_from (acc : um_session × Nat) (evs : List (List Nat)) :
    um_session × Nat :=
  evs.foldl (fun a ev =>
    ((rdtech_um_receive_data ev a.1).1, a.2 + (rdtech_um_receive_data ev a.1).2)) acc

def run_events (s : um_session) (evs : List (List Nat)) : um_session × Nat :=
  run_events_from (s, 0) evs

theorem run_events_from_append (acc : um_session × Nat)
    (xs ys : List (List Nat)) :
    run_events_from acc (xs ++ ys) = run_events_from (run_events_from acc xs) ys :=
  List.foldl_append _ _ _ _

/-- Once acquisition has stopped, further events change nothing and raise no
further stop signal. -/
theorem run_events_from_stopped (evs : List (List Nat)) :
    ∀ (s : um_session) (n : Nat), s.running = false →
    run_events_from (s, n) evs = (s, n) := by
  induction evs with
  | nil =>
    intro s n _
    rfl
  | cons ev evs ih =>
    intro s n hs
    have hstep : rdtech_um_receive_data ev s = (s, 0) := by
      unfold rdtech_um_receive_data
      rw [if_pos hs]
    unfold run_events_from
    simp only [List.foldl_cons, hstep]
    exact ih s n hs

/-- The session at acquisition start with a sample cap of 3. -/
def cap3_session : um_session := ⟨[], ⟨some 3, 0⟩, true⟩

/-- Claim C7: with a sample cap of 3, each decoded frame increments the decode
counter by exactly one (not one per channel), no stop signal is raised after
the first or second frame, and the stop signal is raised exactly once —
precisely at the third decoded frame — no matter what events follow (spec
modelling: sr_sw_limits and sr_dev_acquisition_stop live outside src/). -/
theorem limits_guard_cap3 (extra : List (List Nat)) :
    (run_events cap3_session [frame0]).2 = 0
    ∧ (run_events cap3_session [frame0]).1.limits.samples_read = 1
    ∧ (run_events cap3_session [frame0, frame0]).2 = 0
    ∧ (run_events cap3_session [frame0, frame0]).1.limits.samples_read = 2
    ∧ (run_events cap3_session ([frame0, frame0, frame0] ++ extra)).2 = 1
    ∧ (run_events cap3_session ([frame0, frame0, frame0] ++ extra)).1.limits.samples_read = 3 := by
  have h3 : run_events cap3_session [frame0, frame0, frame0]
      = (⟨[], ⟨some 3, 3⟩, false⟩, 1) := by
    set_option maxRecDepth 1000000 in decide
  have hsplit : run_events cap3_session ([frame0, frame0, frame0] ++ extra)
      = (⟨[], ⟨some 3, 3⟩, false⟩, 1) := by
    unfold run_events at h3 ⊢
    rw [run_events_from_append, h3]
    exact run_events_from_stopped extra ⟨[], ⟨some 3, 3⟩, false⟩ 1 rfl
  refine ⟨?_, ?_, ?_, ?_, ?_, ?_⟩
  · set_option maxRecDepth 1000000 in decide
  · set_option maxRecDepth 1000000 in decide
  · set_option maxRecDepth 1000000 in decide
  · set_option maxRecDepth 1000000 in decide
  · rw [hsplit]
  · rw [hsplit]

end RdtechUm
